import Mathlib

/-!
Verification of the llmserve scheduling/admission core against its
natural-language specification.

The Python source is shallowly embedded:
* floats (token levels, rates, timestamps, scores, probabilities) become `ℚ`
  (exact arithmetic idealization of the float computations);
* `monotonic_time()` / `time.time()` calls become explicit `now` parameters
  threaded into each operation;
* Python dicts (`self.buckets`, `self.sems`, config `rate_limits`, the
  `OrderedDict` of `PrefixHeuristic`) become association lists ordered by
  insertion/recency, looked up with `List.lookup`;
* `asyncio.Semaphore` internal `_value` becomes a `Nat`; `locked()` is
  `value = 0`; `release()` increments unconditionally (asyncio semaphores are
  unbounded).  Crucially, in `RateLimiter.acquire_for_decode` the calls
  `sem.acquire()` in the `reject` and `deprioritize` branches are NOT awaited
  in the source (the coroutine object is created and discarded), so they have
  no effect on the semaphore; the embedding reflects this faithfully.  Only
  the `queue` branch (`await sem.acquire()`) actually decrements.
* fallible lookups (`KeyError` / `AttributeError` on a missing config entry)
  are modelled with `Option` / explicit error outcomes.
-/

namespace LLMServe

/-- Policy on limit exhaustion (config literal
deprioritize | queue | reject). -/
inductive Policy where
  | deprioritize
  | queue
  | reject
deriving DecidableEq, Repr

/-- Per-tenant rate limit configuration, mirroring config.py RateLimitCfg with
its pydantic defaults (tokens_per_sec=0.0, burst=0, max_concurrency=0,
on_exhaustion=deprioritize, deprioritize_multiplier=1.25,
penalty_window_ms=2000). -/
structure RateLimitCfg where
  tokens_per_sec : ℚ := 0
  burst : ℚ := 0
  max_concurrency : Nat := 0
  on_exhaustion : Policy := .deprioritize
  deprioritize_multiplier : ℚ := 5/4
  penalty_window_ms : ℤ := 2000
deriving DecidableEq, Repr

/-- Token bucket state (ratelimit.py _Bucket). -/
structure Bucket where
  rate : ℚ
  burst : ℚ
  tokens : ℚ
  last_ts : ℚ
deriving DecidableEq, Repr

/-- Assessment returned by RateLimiter.assess (ratelimit.py Assessment). -/
structure Assessment where
  tenant : String
  penalty_multiplier : ℚ
  penalty_expires_at : ℚ
  tokens_deficit : ℚ
  policy : Policy
deriving DecidableEq, Repr

/-- Whole-limiter state: the config dict self.cfg, the bucket dict
self.buckets and the semaphore dict self.sems (semaphore = its internal
counter value). -/
structure RLState where
  cfg : List (String × RateLimitCfg)
  buckets : List (String × Bucket)
  sems : List (String × Nat)
deriving DecidableEq, Repr

/-- Dict update d[k] = v for an association list: replaces the value at the
first (and, for dict-derived lists, only) occurrence of the key, keeping
order. -/
def setA {α : Type} (l : List (String × α)) (k : String) (v : α) :
    List (String × α) :=
  l.map (fun p => if p.1 = k then (k, v) else p)

/-- Burst capacity computed in RateLimiter.__init__:
float(c.burst or (rate*2 if rate>0 else 0.0)).  Python or takes the fallback
exactly when c.burst == 0. -/
def mkBurst (c : RateLimitCfg) : ℚ :=
  if c.burst = 0 then (if c.tokens_per_sec > 0 then c.tokens_per_sec * 2 else 0)
  else c.burst

/-- Initial bucket for a configured tenant: _Bucket(rate, burst, burst, now). -/
def mkBucket (c : RateLimitCfg) (now : ℚ) : Bucket :=
  ⟨c.tokens_per_sec, mkBurst c, mkBurst c, now⟩

/-- Semaphore capacity: asyncio.Semaphore(int(c.max_concurrency) or 1_000_000);
Python or yields the fallback exactly when max_concurrency == 0. -/
def mkSem (c : RateLimitCfg) : Nat :=
  if c.max_concurrency = 0 then 1000000 else c.max_concurrency

/-- RateLimitCfg() with all pydantic defaults. -/
def RateLimitCfg.dflt : RateLimitCfg :=
  { tokens_per_sec := 0 }

/-- Config-time validator (config.py _validate_spec): if no "default" entry is
present in scheduling.rate_limits, insert RateLimitCfg() with all defaults. -/
def validateCfg (rl : List (String × RateLimitCfg)) :
    List (String × RateLimitCfg) :=
  if (rl.lookup "default").isSome then rl
  else rl ++ [("default", RateLimitCfg.dflt)]

/-- RateLimiter.__init__: build per-tenant buckets and semaphores from the
rate_limits dict, then add a zero bucket and an unbounded semaphore under
"default" when that key is absent. -/
def initRL (rl : List (String × RateLimitCfg)) (now : ℚ) : RLState :=
  let buckets := rl.map (fun p => (p.1, mkBucket p.2 now))
  let sems := rl.map (fun p => (p.1, mkSem p.2))
  if (buckets.lookup "default").isSome then ⟨rl, buckets, sems⟩
  else ⟨rl, buckets ++ [("default", ⟨0, 0, 0, now⟩)],
        sems ++ [("default", 1000000)]⟩

/-- RateLimiter._cfg: self.cfg.get(tenant, self.cfg.get("default")); none
models the Python None that a later attribute access would crash on. -/
def cfgLookup (st : RLState) (tenant : String) : Option RateLimitCfg :=
  match st.cfg.lookup tenant with
  | some c => some c
  | none => st.cfg.lookup "default"

/-- RateLimiter._refill on a single bucket: lazy refill, no-op when rate <= 0
or when no time has elapsed, otherwise add rate*dt capped at burst and advance
last_ts. -/
def refillB (b : Bucket) (now : ℚ) : Bucket :=
  if b.rate ≤ 0 then b
  else if now - b.last_ts > 0 then
    { b with tokens := min b.burst (b.tokens + b.rate * (now - b.last_ts)),
             last_ts := now }
  else b

/-- Tenant key resolution used by assess and acquire_for_decode:
tenant if tenant in self.buckets else "default". -/
def resolveTenant (st : RLState) (tenant : String) : String :=
  if (st.buckets.lookup tenant).isSome then tenant else "default"

/-- RateLimiter.assess.  Returns none when the resolved tenant has no config
entry (Python would raise AttributeError on None.on_exhaustion) or no bucket
(KeyError); with a validated config both lookups always succeed. -/
def assessRL (st : RLState) (tenant : String) (est : ℤ) (now : ℚ) :
    Option (Assessment × RLState) :=
  let t := resolveTenant st tenant
  match cfgLookup st t, st.buckets.lookup t with
  | some c, some b =>
    let b1 := refillB b now
    let st1 : RLState := { st with buckets := setA st.buckets t b1 }
    let deficit := max 0 ((est : ℚ) - b1.tokens)
    if c.on_exhaustion = .deprioritize ∧ deficit > 0 then
      some (⟨t, c.deprioritize_multiplier,
             now + (c.penalty_window_ms : ℚ) / 1000, deficit,
             c.on_exhaustion⟩, st1)
    else
      some (⟨t, 1, 0, deficit, c.on_exhaustion⟩, st1)
  | _, _ => none

/-- Exceptions acquire_for_decode can raise: RateLimitError with reason
"concurrency" or "tokens", RateLimitRetry with reason "concurrency" or
"tokens". -/
inductive RLExn where
  | rejectC
  | rejectT
  | retryC
  | retryT
deriving DecidableEq, Repr

/-- Outcome of acquire_for_decode: success (a release handle is returned),
one of the four rate-limit exceptions, an unbounded wait on
await sem.acquire() under the queue policy, or a non-rate-limit error
(KeyError/AttributeError on missing dict entries). -/
inductive AcqOutcome where
  | ok
  | exn (e : RLExn)
  | blocked
  | err
deriving DecidableEq, Repr

/-- sem.release() for tenant t: unconditional increment (asyncio semaphores
are unbounded); missing key leaves the state unchanged (in _Handle.release the
exception would be swallowed). -/
def relSem (st : RLState) (t : String) : RLState :=
  match st.sems.lookup t with
  | none => st
  | some v => { st with sems := setA st.sems t (v + 1) }

/-- Token-bucket stage of acquire_for_decode (the try block, source lines
105-133), for resolved tenant t under policy pol.  The bare except clause
releases the semaphore once more on ANY raise inside the block — including the
RateLimitError/RateLimitRetry raised right after an explicit sem.release(),
hence the double relSem on those paths.  now is the refill instant; now2 is
the instant after the capped sleep in the queue branch. -/
def tokenStage (st : RLState) (t : String) (pol : Policy) (cost : ℤ)
    (now now2 : ℚ) : AcqOutcome × RLState :=
  match st.buckets.lookup t with
  | none => (.err, relSem st t)
  | some b =>
    let b1 := refillB b now
    let st1 : RLState := { st with buckets := setA st.buckets t b1 }
    if b1.rate ≤ 0 then (.ok, st1)
    else if (cost : ℚ) ≤ b1.tokens then
      (.ok, { st1 with
              buckets := setA st1.buckets t { b1 with tokens := b1.tokens - cost } })
    else
      match pol with
      | .reject => (.exn .rejectT, relSem (relSem st1 t) t)
      | .queue =>
        let b2 := refillB b1 now2
        (.ok, { st1 with
                buckets := setA st1.buckets t
                  { b2 with tokens := max 0 (b2.tokens - cost) } })
      | .deprioritize => (.exn .retryT, relSem (relSem st1 t) t)

/-- RateLimiter.acquire_for_decode.  Faithful to the source: in the reject and
deprioritize branches the statement sem.acquire() is not awaited, so the
semaphore value is NOT decremented there; only the queue branch
(await sem.acquire()) decrements.  The concurrency check fires when the
semaphore value is 0 (sem.locked() or sem._value <= 0). -/
def acquireForDecode (st : RLState) (tenant : String) (cost : ℤ)
    (now now2 : ℚ) : AcqOutcome × RLState :=
  let t := resolveTenant st tenant
  match cfgLookup st t, st.sems.lookup t with
  | some c, some v =>
    match c.on_exhaustion with
    | .reject =>
      if v = 0 then (.exn .rejectC, st)
      else tokenStage st t .reject cost now now2
    | .queue =>
      if v = 0 then (.blocked, st)
      else tokenStage { st with sems := setA st.sems t (v - 1) } t .queue
             cost now now2
    | .deprioritize =>
      if v = 0 then (.exn .retryC, st)
      else tokenStage st t .deprioritize cost now now2
  | _, _ => (.err, st)

/-- _Handle.release: returns the concurrency slot by releasing the tenant's
semaphore. -/
def handleRelease (st : RLState) (t : String) : RLState := relSem st t

/-! ## Concrete rate-limiter scenarios -/

/-- Tenant config of the concurrency scenario: max_concurrency=1,
on_exhaustion=reject, no token rate. -/
def cfgFreeConc : RateLimitCfg := { max_concurrency := 1, on_exhaustion := .reject }

/-- Fresh limiter (at time 0) for a single tenant "free" with cfgFreeConc,
after config validation. -/
def stFreeConc : RLState := initRL (validateCfg [("free", cfgFreeConc)]) 0

/-- Tenant config of the token scenario: tokens_per_sec=1 (hence burst = 2 by
the init fallback), max_concurrency=1, on_exhaustion=reject. -/
def cfgFreeTok : RateLimitCfg :=
  { tokens_per_sec := 1, max_concurrency := 1, on_exhaustion := .reject }

/-- Fresh limiter (at time 0) for a single tenant "free" with cfgFreeTok. -/
def stFreeTok : RLState := initRL (validateCfg [("free", cfgFreeTok)]) 0

/-! ## FairShareScheduler -/

/-- Work item kind in the scheduler queue. -/
inductive ItemKind where
  | prefill
  | decode
deriving DecidableEq, Repr

/-- Scheduling policies, mirroring config.py SchedulingPolicies with its
defaults (chunked_prefill=True, prefill_chunk_tokens=512, min_decode_slots=2,
prefix_awareness=True, aging_seconds=2.0). -/
structure SchedPolicies where
  chunked_prefill : Bool := true
  prefill_chunk_tokens : ℤ := 512
  min_decode_slots : ℤ := 2
  prefix_awareness : Bool := true
  aging_seconds : ℚ := 2
deriving DecidableEq, Repr

/-- SchedulingPolicies() with all defaults. -/
def SchedPolicies.dflt : SchedPolicies :=
  { chunked_prefill := true }

/-- Scoring-relevant fields of a fairshare.py RequestCtx (the output queue and
done event are process state, not score inputs). -/
structure RequestCtx where
  tenant : String
  est_tokens : ℤ
  prefix_hit_prob : ℚ
  created_ts : ℚ
  penalty_mult : ℚ
  penalty_expires : ℚ
deriving DecidableEq, Repr

/-- FairShareScheduler._score.  weight is _tenant_weight(ctx.tenant); nowMono
is the monotonic_time() read in the penalty check and nowWall the time.time()
read in the aging term. -/
def score (pol : SchedPolicies) (weight : ℚ) (ctx : RequestCtx)
    (kind : ItemKind) (nowMono nowWall : ℚ) : ℚ :=
  let srpt : ℚ := 1 / (ctx.est_tokens : ℚ)
  let s0 := (1 / weight) * srpt
  let s1 := if pol.prefix_awareness ∧ ctx.prefix_hit_prob > 1/2
            then s0 * (7/10) else s0
  let s2 := if ctx.penalty_mult > 1 ∧
               (ctx.penalty_expires = 0 ∨ nowMono < ctx.penalty_expires)
            then s1 * ctx.penalty_mult else s1
  let waited := max 0 (nowWall - ctx.created_ts)
  let s3 := if pol.aging_seconds > 0
            then s2 * max (4/5) (1 - min 1 (waited / pol.aging_seconds) * (1/5))
            else s2
  if kind = .decode then s3 * (9/10) else s3

/-- What the run loop enqueues after serving one prefill chunk. -/
inductive NextItem where
  | prefillAt (off : ℤ)
  | decodeItem
deriving DecidableEq, Repr

/-- Prefill branch of FairShareScheduler.run (source lines 102-109): after
calling prefill_chunk(ctx, off, chunk), re-enqueue a prefill item at
off + chunk when off + chunk < est_tokens and chunked prefill is enabled,
otherwise enqueue a decode item. -/
def prefillStep (pol : SchedPolicies) (est off : ℤ) : NextItem :=
  let off2 := off + pol.prefill_chunk_tokens
  if off2 < est ∧ pol.chunked_prefill then .prefillAt off2 else .decodeItem

/-- Offsets at which prefill_chunk is invoked for one request, starting from
a given offset, following prefillStep until a decode item is enqueued (fuel
bounds the recursion; with fuel exhausted the trace is truncated). -/
def prefillOffsets (pol : SchedPolicies) (est : ℤ) : Nat → ℤ → List ℤ
  | 0, off => [off]
  | fuel + 1, off =>
    off :: (match prefillStep pol est off with
            | .prefillAt o2 => prefillOffsets pol est fuel o2
            | .decodeItem => [])

/-- Observable effect of handling one decode item on its request: whether the
request is marked done (ctx.done.set()) and whether the decode item is put
back on the queue. -/
structure DecodeEffect where
  setsDone : Bool
  requeues : Bool
deriving DecidableEq, Repr

/-- Decode branch of FairShareScheduler.run for an item popped at the top of
the loop (source lines 111-134): RateLimitRetry re-enqueues the decode item;
RateLimitError marks the request done and drops the item; success streams and
then marks done; any other exception propagates (killing the loop); a blocked
acquisition simply keeps awaiting. -/
def mainLoopDecodeEffect : AcqOutcome → DecodeEffect
  | .ok => ⟨true, false⟩
  | .exn .retryC => ⟨false, true⟩
  | .exn .retryT => ⟨false, true⟩
  | .exn .rejectC => ⟨true, false⟩
  | .exn .rejectT => ⟨true, false⟩
  | .blocked => ⟨false, false⟩
  | .err => ⟨false, false⟩

/-- Decode handling in the opportunistic extra-decode sub-loop (source lines
138-156): except Exception catches EVERY exception from acquire_for_decode —
RateLimitError included — re-enqueues the item ("put it back for later") and
breaks out of the sub-loop; the request is not marked done there. -/
def extraLoopDecodeEffect : AcqOutcome → DecodeEffect
  | .ok => ⟨true, false⟩
  | .blocked => ⟨false, false⟩
  | .exn _ => ⟨false, true⟩
  | .err => ⟨false, true⟩

/-! ## Router submission gate -/

/-- Router.submit_and_stream token estimate: max(1, len(prompt) // 4). -/
def estTokens (promptLen : Nat) : ℤ := ((max 1 (promptLen / 4) : ℕ) : ℤ)

/-- Decision taken by Router.submit_and_stream before enqueueing. -/
inductive SubmitDecision where
  | rejected
  | accepted (a : Assessment)
  | errS
deriving DecidableEq, Repr

/-- Submission-time admission short-circuit of Router.submit_and_stream
(source lines 265-273): assess the tenant, and raise RateLimitError(tenant,
"tokens") when the policy is reject and the assessed deficit is positive;
otherwise the request proceeds to the scheduler carrying the assessment. -/
def submitGate (st : RLState) (tenant : String) (promptLen : Nat) (now : ℚ) :
    SubmitDecision × RLState :=
  match assessRL st tenant (estTokens promptLen) now with
  | none => (.errS, st)
  | some (a, st1) =>
    if a.policy = .reject ∧ a.tokens_deficit > 0 then (.rejected, st1)
    else (.accepted a, st1)

/-! ## PrefixHeuristic -/

/-- PrefixHeuristic._prefix_key.  The source hashes the first 512 characters
with blake2b (digest_size 16); the hash is modelled by the 512-character
prefix itself, which preserves the only property used: the key is a function
of the first 512 characters, so identical prefixes give identical keys. -/
def prefixKey (prompt : String) : String := ⟨prompt.data.take 512⟩

/-- PrefixHeuristic state: capacity and the OrderedDict from fingerprint to
sighting count, as a list in recency order (head = least recently
observed). -/
structure PrefixHeuristicState where
  maxEntries : Nat
  lru : List (String × Nat)
deriving DecidableEq, Repr

/-- PrefixHeuristic() with the default capacity of 4096 entries and an empty
map. -/
def PrefixHeuristicState.init : PrefixHeuristicState := ⟨4096, []⟩

/-- Count-to-probability mapping at the end of PrefixHeuristic.observe:
counts 1, 2, 3, 4 map to 0.1, 0.3, 0.5, 0.7 and counts >= 5 map to 0.9. -/
def quantize (cnt : Nat) : ℚ :=
  if 5 ≤ cnt then 9/10
  else if cnt = 4 then 7/10
  else if cnt = 3 then 1/2
  else if cnt = 2 then 3/10
  else 1/10

/-- PrefixHeuristic.observe: increment the sighting count of the prompt's
prefix fingerprint, refresh its recency (move_to_end), store the new count,
evict the least-recently-observed entry (popitem(last=False)) when the map
exceeds capacity, and return the quantized probability of the post-increment
count. -/
def observe (h : PrefixHeuristicState) (prompt : String) :
    ℚ × PrefixHeuristicState :=
  let key := prefixKey prompt
  let prev := h.lru.lookup key
  let cnt := prev.getD 0 + 1
  let lru1 := match prev with
              | some _ => (h.lru.filter (fun p => p.1 ≠ key)) ++ [(key, cnt)]
              | none => h.lru ++ [(key, cnt)]
  let lru2 := if h.maxEntries < lru1.length then lru1.tail else lru1
  (quantize cnt, ⟨h.maxEntries, lru2⟩)

/-- Probabilities returned by n successive observe calls for the same
prompt. -/
def observeSeq (h : PrefixHeuristicState) (prompt : String) : Nat → List ℚ
  | 0 => []
  | n + 1 =>
    let r := observe h prompt
    r.1 :: observeSeq r.2 prompt n

/-! ## Invariants -/

/-- The spec's bucket invariant: token level within [0, burst]. -/
def BucketWF (b : Bucket) : Prop := 0 ≤ b.tokens ∧ b.tokens ≤ b.burst

/-- All buckets of a limiter state satisfy the bucket invariant. -/
def RLWF (st : RLState) : Prop := ∀ p ∈ st.buckets, BucketWF p.2

/-- Limiter state after an assess call (unchanged when assess would crash on a
missing config entry). -/
def assessPost (st : RLState) (tenant : String) (est : ℤ) (now : ℚ) :
    RLState :=
  match assessRL st tenant est now with
  | some r => r.2
  | none => st

end LLMServe

/-! ## Theorems -/

namespace LLMServe

set_option maxRecDepth 4096

/-- C1: the claim states that for a tenant with max_concurrency=1 and
on_exhaustion=reject, a second acquire_for_decode while the first holds its
slot fails with RateLimitError("concurrency").  The code does NOT do this:
sem.acquire() in the reject branch is never awaited, so the semaphore (whose
capacity is 1) is never decremented, and the second call also returns ok
instead of raising. -/
theorem c1_second_acquire_not_rejected :
    stFreeConc.sems.lookup "free" = some 1 ∧
    (acquireForDecode stFreeConc "free" 10 0 0).1 = .ok ∧
    ((acquireForDecode stFreeConc "free" 10 0 0).2).sems.lookup "free" = some 1 ∧
    (acquireForDecode (acquireForDecode stFreeConc "free" 10 0 0).2
      "free" 10 0 0).1 = .ok := by
  refine ⟨by decide, by decide, by decide, by decide⟩

/-- C2: the claim states the concurrency semaphore value never exceeds its
initial capacity and a token-stage failure performs at most one net release.
The code violates this: under the reject policy a token-stage failure
releases the semaphore explicitly and then once more in the bare except
clause, while the preceding sem.acquire() was never awaited — a single failed
call on a fresh limiter of capacity 1 leaves the semaphore at 3. -/
theorem c2_semaphore_exceeds_capacity :
    mkSem cfgFreeTok = 1 ∧
    stFreeTok.sems.lookup "free" = some 1 ∧
    (acquireForDecode stFreeTok "free" 5 0 0).1 = .exn .rejectT ∧
    ((acquireForDecode stFreeTok "free" 5 0 0).2).sems.lookup "free" = some 3 := by
  refine ⟨by decide, by decide, ?_, ?_⟩
  · simp [stFreeTok, cfgFreeTok, acquireForDecode, tokenStage, initRL,
      validateCfg, resolveTenant, cfgLookup, refillB, relSem, setA, mkBucket,
      mkBurst, mkSem, RateLimitCfg.dflt]
    norm_num
  · simp [stFreeTok, cfgFreeTok, acquireForDecode, tokenStage, initRL,
      validateCfg, resolveTenant, cfgLookup, refillB, relSem, setA, mkBucket,
      mkBurst, mkSem, RateLimitCfg.dflt]
    norm_num


/-- C3: the claim asserts that EVERY decode item whose acquire_for_decode
raises RateLimitError is marked done and dropped, including items pulled in
the opportunistic extra-decode sub-loop.  Counterexample: in the sub-loop the
blanket except Exception handler re-enqueues the item and breaks without
marking the request done; here is a concrete reject-signal acquisition whose
sub-loop handling re-enqueues instead of completing. -/
theorem c3_counterexample :
    (acquireForDecode stFreeTok "free" 5 0 0).1 = .exn .rejectT ∧
    extraLoopDecodeEffect (.exn .rejectT) = ⟨false, true⟩ := by
  refine ⟨?_, rfl⟩
  simp [stFreeTok, cfgFreeTok, acquireForDecode, tokenStage, initRL,
    validateCfg, resolveTenant, cfgLookup, refillB, relSem, setA, mkBucket,
    mkBurst, mkSem, RateLimitCfg.dflt]
  norm_num

/-- C3 amended: a RateLimitError from acquire_for_decode marks the request
done and drops the item for decode items popped at the top of the run loop;
in the extra-decode sub-loop, any acquisition failure instead re-enqueues the
item (without marking it done) and ends the sub-loop. -/
theorem c3_reject_handling (o : AcqOutcome)
    (h : o = .exn .rejectC ∨ o = .exn .rejectT) :
    mainLoopDecodeEffect o = ⟨true, false⟩ ∧
    extraLoopDecodeEffect o = ⟨false, true⟩ := by
  rcases h with rfl | rfl <;> exact ⟨rfl, rfl⟩

/-- Witness for c3_reject_handling at the concurrency-reject signal. -/
theorem c3_reject_handling_witness :
    mainLoopDecodeEffect (.exn .rejectC) = ⟨true, false⟩ ∧
    extraLoopDecodeEffect (.exn .rejectC) = ⟨false, true⟩ :=
  c3_reject_handling (.exn .rejectC) (Or.inl rfl)

/-- C8: with chunked prefill enabled and prefill_chunk_tokens=512 (the
defaults), a request with est_tokens=1000 gets prefill_chunk invocations at
offsets 0 and 512 only, then a decode item; and in general one run-loop
prefill step re-enqueues a prefill item at the advanced offset exactly when
offset + chunk < est_tokens and chunking is enabled, otherwise it enqueues a
decode item. -/
theorem c8_chunked_prefill :
    prefillOffsets SchedPolicies.dflt 1000 8 0 = [0, 512] ∧
    prefillStep SchedPolicies.dflt 1000 512 = .decodeItem ∧
    (∀ (pol : SchedPolicies) (est off : ℤ),
      (prefillStep pol est off = .prefillAt (off + pol.prefill_chunk_tokens)
        ↔ (off + pol.prefill_chunk_tokens < est ∧ pol.chunked_prefill = true)) ∧
      (prefillStep pol est off = .decodeItem
        ↔ ¬(off + pol.prefill_chunk_tokens < est ∧ pol.chunked_prefill = true))) := by
  refine ⟨by rfl, by rfl, fun pol est off => ⟨?_, ?_⟩⟩ <;>
    · simp only [prefillStep]
      split_ifs with h <;> simp_all

/-- C9: observe returns the quantized probability of the post-increment
sighting count (1, 2, 3, 4 map to 0.1, 0.3, 0.5, 0.7; every count at least 5
maps to 0.9); the fingerprint depends only on the first 512 characters, so two
prompts sharing that prefix map to the same key; and six repeated
observations of one prompt yield 0.1, 0.3, 0.5, 0.7, 0.9, 0.9. -/
theorem c9_observe_quantized :
    quantize 1 = 1/10 ∧ quantize 2 = 3/10 ∧ quantize 3 = 1/2 ∧
    quantize 4 = 7/10 ∧
    (∀ c : Nat, 5 ≤ c → quantize c = 9/10) ∧
    (∀ p1 p2 : String, p1.data.take 512 = p2.data.take 512 →
      prefixKey p1 = prefixKey p2) ∧
    observeSeq PrefixHeuristicState.init "hello" 6 =
      [1/10, 3/10, 1/2, 7/10, 9/10, 9/10] := by
  refine ⟨by rfl, by rfl, by rfl, by rfl, ?_, ?_, by rfl⟩
  · intro c hc
    unfold quantize
    rw [if_pos hc]
  · intro p1 p2 h
    unfold prefixKey
    rw [h]

/-- Witness for c9_observe_quantized: count 7 quantizes to 0.9, and two
prompts with equal 512-character prefixes share a fingerprint. -/
theorem c9_observe_quantized_witness :
    quantize 7 = 9/10 ∧ prefixKey "ab" = prefixKey "ab" :=
  ⟨c9_observe_quantized.2.2.2.2.1 7 (by norm_num),
   c9_observe_quantized.2.2.2.2.2.1 "ab" "ab" rfl⟩


/-- Looking up a present key and filtering it out strictly shrinks an
association list. -/
theorem length_filter_lt_of_lookup {α : Type} (k : String) :
    ∀ (l : List (String × α)) (v : α), l.lookup k = some v →
      (l.filter (fun p => p.1 ≠ k)).length < l.length := by
  intro l
  induction l with
  | nil => intro v hv; simp [List.lookup] at hv
  | cons hd tl ih =>
    intro v hv
    obtain ⟨k1, v1⟩ := hd
    simp only [List.lookup] at hv
    by_cases hk : k1 = k
    · subst hk
      have hle :=
        List.length_filter_le (fun p : String × α => decide (p.1 ≠ k1)) tl
      rw [List.filter_cons_of_neg]
      · exact Nat.lt_succ_of_le hle
      · simp
    · have hbeq : (k == k1) = false := by
        simp only [beq_eq_false_iff_ne, ne_eq]
        exact fun he => hk he.symm
      rw [hbeq] at hv
      have hrec := ih v hv
      rw [List.filter_cons_of_pos]
      · simpa using Nat.succ_lt_succ hrec
      · simp [hk]

/-- C10: after every observe call the map holds at most maxEntries entries
(4096 for the default instance), and an observe that inserts a new
fingerprint into a full map evicts the least-recently-observed (front)
entry. -/
theorem c10_capacity_bound (h : PrefixHeuristicState) (prompt : String)
    (hlen : h.lru.length ≤ h.maxEntries) :
    ((observe h prompt).2).lru.length ≤ h.maxEntries ∧
    (h.lru.lookup (prefixKey prompt) = none → h.lru.length = h.maxEntries →
      1 ≤ h.maxEntries →
      ((observe h prompt).2).lru = h.lru.tail ++ [(prefixKey prompt, 1)]) ∧
    PrefixHeuristicState.init.maxEntries = 4096 := by
  refine ⟨?_, ?_, rfl⟩
  · simp only [observe]
    cases hprev : h.lru.lookup (prefixKey prompt) with
    | some v =>
      have hflt := length_filter_lt_of_lookup (prefixKey prompt) h.lru v hprev
      simp only [hprev]
      split_ifs with hcond <;>
        simp_all [List.length_tail, List.length_append] <;> omega
    | none =>
      simp only [hprev]
      split_ifs with hcond <;>
        simp_all [List.length_tail, List.length_append]
  · intro hnone hfull hpos
    simp only [observe, hnone]
    have hcond : h.maxEntries < (h.lru ++ [(prefixKey prompt, 1)]).length := by
      simp [List.length_append, hfull]
    rw [if_pos]
    · cases hl : h.lru with
      | nil => rw [hl] at hfull; simp at hfull; omega
      | cons a l => simp [hl]
    · simpa using hcond

/-- Witness for c10_capacity_bound on a capacity-2 map holding two entries:
observing a fresh prompt keeps the size at 2 and evicts the front entry. -/
theorem c10_capacity_bound_witness :
    ((observe ⟨2, [("a", 1), ("b", 2)]⟩ "c").2).lru.length ≤ 2 ∧
    ((observe ⟨2, [("a", 1), ("b", 2)]⟩ "c").2).lru =
      [("a", 1), ("b", 2)].tail ++ [(prefixKey "c", 1)] ∧
    PrefixHeuristicState.init.maxEntries = 4096 := by
  have h := c10_capacity_bound ⟨2, [("a", 1), ("b", 2)]⟩ "c" (by decide)
  exact ⟨h.1, h.2.1 (by decide) (by decide) (by decide), h.2.2⟩

theorem lookup_map_val {α β : Type} (f : α → β) (k : String) :
    ∀ l : List (String × α),
      (l.map (fun p => (p.1, f p.2))).lookup k = (l.lookup k).map f := by
  intro l
  induction l with
  | nil => rfl
  | cons hd tl ih =>
    obtain ⟨k1, v1⟩ := hd
    simp only [List.map, List.lookup]
    cases h : k == k1 <;> simp [h, ih]

theorem lookup_append {α : Type} (k : String) (l1 l2 : List (String × α)) :
    (l1 ++ l2).lookup k =
      match l1.lookup k with
      | some v => some v
      | none => l2.lookup k := by
  induction l1 with
  | nil => simp [List.lookup]
  | cons hd tl ih =>
    obtain ⟨k1, v1⟩ := hd
    simp only [List.cons_append, List.lookup]
    cases h : k == k1 <;> simp [h, ih]

theorem validateCfg_default_isSome (rl : List (String × RateLimitCfg)) :
    ((validateCfg rl).lookup "default").isSome := by
  unfold validateCfg
  split_ifs with h
  · exact h
  · cases hx : List.lookup "default" rl with
    | some v => exact absurd (by rw [hx]; rfl) h
    | none => rw [lookup_append, hx]; rfl

theorem initRL_validated (rl : List (String × RateLimitCfg)) (now : ℚ) :
    initRL (validateCfg rl) now =
      ⟨validateCfg rl,
       (validateCfg rl).map (fun p => (p.1, mkBucket p.2 now)),
       (validateCfg rl).map (fun p => (p.1, mkSem p.2))⟩ := by
  simp only [initRL]
  rw [if_pos]
  rw [lookup_map_val (fun c => mkBucket c now) "default" (validateCfg rl)]
  obtain ⟨v, hv⟩ := Option.isSome_iff_exists.mp (validateCfg_default_isSome rl)
  rw [hv]
  rfl


theorem assess_total_aux (rl2 : List (String × RateLimitCfg)) (now : ℚ)
    (tenant : String) (est : ℤ) (d : RateLimitCfg)
    (hd : rl2.lookup "default" = some d) :
    ∃ a st2,
      assessRL ⟨rl2, rl2.map (fun p => (p.1, mkBucket p.2 now)),
        rl2.map (fun p => (p.1, mkSem p.2))⟩ tenant est now = some (a, st2) ∧
      (a.policy = .deprioritize ∨
        (a.penalty_multiplier = 1 ∧ a.penalty_expires_at = 0)) := by
  by_cases ht : (rl2.lookup tenant).isSome
  · obtain ⟨c, hc⟩ := Option.isSome_iff_exists.mp ht
    have hb : (rl2.map (fun p => (p.1, mkBucket p.2 now))).lookup tenant
        = some (mkBucket c now) := by
      rw [lookup_map_val (fun x => mkBucket x now) tenant rl2, hc]
      rfl
    have hres : resolveTenant ⟨rl2, rl2.map (fun p => (p.1, mkBucket p.2 now)),
        rl2.map (fun p => (p.1, mkSem p.2))⟩ tenant = tenant := by
      simp [resolveTenant, hb]
    have hcfg : cfgLookup ⟨rl2, rl2.map (fun p => (p.1, mkBucket p.2 now)),
        rl2.map (fun p => (p.1, mkSem p.2))⟩ tenant = some c := by
      simp [cfgLookup, hc]
    simp only [assessRL, hres, hcfg, hb]
    split_ifs with h
    · exact ⟨_, _, rfl, Or.inl h.1⟩
    · exact ⟨_, _, rfl, Or.inr ⟨rfl, rfl⟩⟩
  · have htn : rl2.lookup tenant = none := Option.not_isSome_iff_eq_none.mp ht
    have hbn : (rl2.map (fun p => (p.1, mkBucket p.2 now))).lookup tenant
        = none := by
      rw [lookup_map_val (fun x => mkBucket x now) tenant rl2, htn]
      rfl
    have hres : resolveTenant ⟨rl2, rl2.map (fun p => (p.1, mkBucket p.2 now)),
        rl2.map (fun p => (p.1, mkSem p.2))⟩ tenant = "default" := by
      simp [resolveTenant, hbn]
    have hb : (rl2.map (fun p => (p.1, mkBucket p.2 now))).lookup "default"
        = some (mkBucket d now) := by
      rw [lookup_map_val (fun x => mkBucket x now) "default" rl2, hd]
      rfl
    have hcfg : cfgLookup ⟨rl2, rl2.map (fun p => (p.1, mkBucket p.2 now)),
        rl2.map (fun p => (p.1, mkSem p.2))⟩ "default" = some d := by
      simp [cfgLookup, hd]
    simp only [assessRL, hres, hcfg, hb]
    split_ifs with h
    · exact ⟨_, _, rfl, Or.inl h.1⟩
    · exact ⟨_, _, rfl, Or.inr ⟨rfl, rfl⟩⟩

/-- C4: assess is total and non-failing for every tenant and estimate on a
limiter built from a validated configuration (the config validator inserts a
"default" entry, and unknown tenants resolve to the always-existing default
bucket); whenever the resolved policy is queue or reject (that is, not
deprioritize) the returned assessment is neutral: penalty multiplier 1 and
expiry 0.  As a pure function of the state it blocks on nothing. -/
theorem c4_assess_total_and_neutral (rl : List (String × RateLimitCfg))
    (tenant : String) (est : ℤ) (now : ℚ) :
    ∃ a st2,
      assessRL (initRL (validateCfg rl) now) tenant est now = some (a, st2) ∧
      (a.policy = .deprioritize ∨
        (a.penalty_multiplier = 1 ∧ a.penalty_expires_at = 0)) := by
  rw [initRL_validated]
  obtain ⟨d, hd⟩ :=
    Option.isSome_iff_exists.mp (validateCfg_default_isSome rl)
  exact assess_total_aux (validateCfg rl) now tenant est d hd


/-- C5: a tenant configured with tokens_per_sec=0, burst unset and
on_exhaustion=reject gets a bucket holding 0 tokens that is never refilled,
so the assessed deficit equals est_tokens = max(1, len // 4) >= 1 > 0 and
Router.submit_and_stream rejects every prompt at submission, whatever the
prompt length, the other config fields and the times involved. -/
theorem c5_zero_rate_reject_always_rejected (mc : Nat) (dm : ℚ) (pw : ℤ)
    (promptLen : Nat) (now0 now : ℚ) :
    (submitGate (initRL (validateCfg [("t",
        { tokens_per_sec := 0, burst := 0, max_concurrency := mc,
          on_exhaustion := .reject, deprioritize_multiplier := dm,
          penalty_window_ms := pw })]) now0) "t" promptLen now).1
      = .rejected := by
  set c0 : RateLimitCfg :=
    { tokens_per_sec := 0, burst := 0, max_concurrency := mc,
      on_exhaustion := .reject, deprioritize_multiplier := dm,
      penalty_window_ms := pw } with hc0
  have hest : (1 : ℤ) ≤ estTokens promptLen := by
    unfold estTokens
    exact_mod_cast Nat.le_max_left 1 (promptLen / 4)
  have hlook : List.lookup "default" [("t", c0)] = none := rfl
  have hval : validateCfg [("t", c0)] =
      [("t", c0), ("default", RateLimitCfg.dflt)] := by
    unfold validateCfg
    rw [hlook]
    rfl
  rw [initRL_validated, hval]
  have hbk : mkBucket c0 now0 = ⟨0, 0, 0, now0⟩ := by
    norm_num [mkBucket, mkBurst, hc0]
  have hb : (List.map (fun p => (p.1, mkBucket p.2 now0))
        [("t", c0), ("default", RateLimitCfg.dflt)]).lookup "t"
      = some (mkBucket c0 now0) := rfl
  have hres : resolveTenant ⟨[("t", c0), ("default", RateLimitCfg.dflt)],
      List.map (fun p => (p.1, mkBucket p.2 now0))
        [("t", c0), ("default", RateLimitCfg.dflt)],
      List.map (fun p => (p.1, mkSem p.2))
        [("t", c0), ("default", RateLimitCfg.dflt)]⟩ "t" = "t" := by
    simp [resolveTenant, hb]
  have hcfg : cfgLookup ⟨[("t", c0), ("default", RateLimitCfg.dflt)],
      List.map (fun p => (p.1, mkBucket p.2 now0))
        [("t", c0), ("default", RateLimitCfg.dflt)],
      List.map (fun p => (p.1, mkSem p.2))
        [("t", c0), ("default", RateLimitCfg.dflt)]⟩ "t" = some c0 := rfl
  simp only [submitGate, assessRL, hres, hcfg, hb, hbk]
  have hrefill : refillB ⟨0, 0, 0, now0⟩ now = ⟨0, 0, 0, now0⟩ := by
    norm_num [refillB]
  have hdef : max 0 ((estTokens promptLen : ℚ) - (0 : ℚ)) > 0 := by
    have h1q : (1 : ℚ) ≤ (estTokens promptLen : ℚ) := by exact_mod_cast hest
    rw [max_def]
    split_ifs <;> linarith
  rw [hrefill, if_neg (fun h => nomatch h.1)]
  dsimp only
  rw [if_pos ⟨rfl, by simpa using hdef⟩]


theorem refillB_wf (b : Bucket) (now : ℚ) (h : BucketWF b) :
    BucketWF (refillB b now) := by
  obtain ⟨h0, hb⟩ := h
  unfold refillB BucketWF
  split_ifs with h1 h2
  · exact ⟨h0, hb⟩
  · refine ⟨le_min (h0.trans hb) ?_, min_le_left _ _⟩
    have hr : 0 < b.rate := lt_of_not_le h1
    nlinarith
  · exact ⟨h0, hb⟩

theorem setA_forall {α : Type} {P : α → Prop} {l : List (String × α)}
    {k : String} {v : α} (hl : ∀ p ∈ l, P p.2) (hv : P v) :
    ∀ p ∈ setA l k v, P p.2 := by
  intro p hp
  simp only [setA, List.mem_map] at hp
  obtain ⟨q, hq, hqe⟩ := hp
  subst hqe
  split_ifs with h
  · exact hv
  · exact hl q hq

theorem lookup_forall {α : Type} {P : α → Prop} {k : String} :
    ∀ {l : List (String × α)} {v : α}, l.lookup k = some v →
      (∀ p ∈ l, P p.2) → P v := by
  intro l
  induction l with
  | nil => intro v hv _; simp [List.lookup] at hv
  | cons hd tl ih =>
    intro v hv hall
    obtain ⟨k1, v1⟩ := hd
    simp only [List.lookup] at hv
    cases h : (k == k1) with
    | true =>
      rw [h] at hv
      simp only [Option.some.injEq] at hv
      subst hv
      exact hall (k1, v1) (by simp)
    | false =>
      rw [h] at hv
      exact ih hv (fun p hp => hall p (List.mem_cons_of_mem _ hp))

theorem relSem_buckets (st : RLState) (t : String) :
    (relSem st t).buckets = st.buckets := by
  unfold relSem
  split <;> rfl

theorem tokenStage_wf (st : RLState) (t : String) (pol : Policy) (cost : ℤ)
    (now now2 : ℚ) (hst : RLWF st) (hcost : 0 ≤ cost) :
    RLWF (tokenStage st t pol cost now now2).2 := by
  have hcq : (0 : ℚ) ≤ (cost : ℚ) := by exact_mod_cast hcost
  cases hlk : st.buckets.lookup t with
  | none =>
    simp only [tokenStage, hlk]
    show RLWF (relSem st t)
    unfold RLWF
    rw [relSem_buckets]
    exact hst
  | some b =>
    have hbw : BucketWF b := lookup_forall hlk hst
    have hb1 : BucketWF (refillB b now) := refillB_wf b now hbw
    simp only [tokenStage, hlk]
    split_ifs with h1 h2
    · exact setA_forall hst hb1
    · refine setA_forall (setA_forall hst hb1) ?_
      obtain ⟨w0, wb⟩ := hb1
      exact ⟨by dsimp; linarith, by dsimp; linarith⟩
    · cases pol with
      | reject =>
        show RLWF (relSem (relSem _ t) t)
        unfold RLWF
        rw [relSem_buckets, relSem_buckets]
        exact setA_forall hst hb1
      | queue =>
        have hb2 : BucketWF (refillB (refillB b now) now2) :=
          refillB_wf _ now2 hb1
        refine setA_forall (setA_forall hst hb1) ?_
        obtain ⟨w0, wb⟩ := hb2
        refine ⟨by dsimp; exact le_max_left 0 _, ?_⟩
        dsimp
        refine max_le (w0.trans wb) ?_
        linarith
      | deprioritize =>
        show RLWF (relSem (relSem _ t) t)
        unfold RLWF
        rw [relSem_buckets, relSem_buckets]
        exact setA_forall hst hb1

theorem acquireForDecode_wf (st : RLState) (tenant : String) (cost : ℤ)
    (now now2 : ℚ) (hst : RLWF st) (hcost : 0 ≤ cost) :
    RLWF (acquireForDecode st tenant cost now now2).2 := by
  unfold acquireForDecode
  dsimp only
  split
  · split <;> split_ifs <;>
      first
        | exact hst
        | exact tokenStage_wf _ _ _ _ _ _ hst hcost
  · exact hst

theorem assessPost_wf (st : RLState) (tenant : String) (est : ℤ) (now : ℚ)
    (hst : RLWF st) : RLWF (assessPost st tenant est now) := by
  unfold assessPost assessRL
  dsimp only
  split
  · rename_i r hr
    split at hr
    · rename_i c b hc hb
      have hbw : BucketWF b := lookup_forall hb hst
      have hb1 : BucketWF (refillB b now) := refillB_wf b now hbw
      split_ifs at hr <;>
        · simp only [Option.some.injEq] at hr
          subst hr
          exact setA_forall hst hb1
    · simp at hr
  · exact hst

theorem initRL_wf (rl : List (String × RateLimitCfg)) (now : ℚ)
    (hrl : ∀ p ∈ rl, 0 ≤ p.2.burst) : RLWF (initRL rl now) := by
  have hmk : ∀ p ∈ rl, BucketWF (mkBucket p.2 now) := by
    intro p hp
    have hb := hrl p hp
    unfold mkBucket BucketWF mkBurst
    refine ⟨?_, le_refl _⟩
    dsimp
    split_ifs with hz hr
    · nlinarith
    · exact le_refl 0
    · exact hb
  unfold initRL RLWF
  dsimp only
  split_ifs with h <;> intro p hp
  · obtain ⟨q, hq, hqe⟩ := List.mem_map.mp hp
    subst hqe
    exact hmk q hq
  · rcases List.mem_append.mp hp with hp1 | hp2
    · obtain ⟨q, hq, hqe⟩ := List.mem_map.mp hp1
      subst hqe
      exact hmk q hq
    · rw [List.mem_singleton] at hp2
      subst hp2
      exact ⟨le_refl 0, le_refl 0⟩

/-- C6: the per-tenant token level stays within [0, burst]: limiter
construction establishes the invariant (for configurations with nonnegative
burst), and both assess (lazy refill) and acquire_for_decode (refill,
deduction on success, and the capped-sleep deduction of the queue policy)
preserve it, for any nonnegative cost. -/
theorem c6_token_level_in_range (rl : List (String × RateLimitCfg))
    (st : RLState) (tenant : String) (est cost : ℤ) (now now2 now3 : ℚ)
    (hrl : ∀ p ∈ rl, 0 ≤ p.2.burst) (hst : RLWF st) (hcost : 0 ≤ cost) :
    RLWF (initRL rl now) ∧
    RLWF (assessPost st tenant est now2) ∧
    RLWF (acquireForDecode st tenant cost now2 now3).2 :=
  ⟨initRL_wf rl now hrl, assessPost_wf st tenant est now2 hst,
   acquireForDecode_wf st tenant cost now2 now3 hst hcost⟩


theorem stFreeTok_buckets :
    stFreeTok.buckets = [("free", ⟨1, 2, 2, 0⟩), ("default", ⟨0, 0, 0, 0⟩)] := by
  simp [stFreeTok, cfgFreeTok, initRL, validateCfg, mkBucket, mkBurst, mkSem,
    RateLimitCfg.dflt, List.lookup]

theorem stFreeTok_wf : RLWF stFreeTok := by
  intro p hp
  rw [stFreeTok_buckets] at hp
  simp only [List.mem_cons, List.not_mem_nil, or_false] at hp
  rcases hp with rfl | rfl <;> constructor <;> norm_num [BucketWF]

/-- Witness for c6_token_level_in_range at the concrete token scenario. -/
theorem c6_token_level_in_range_witness :
    RLWF (initRL [("free", cfgFreeTok)] 0) ∧
    RLWF (assessPost stFreeTok "free" 5 0) ∧
    RLWF (acquireForDecode stFreeTok "free" 5 0 0).2 := by
  refine c6_token_level_in_range [("free", cfgFreeTok)] stFreeTok "free" 5 5
    0 0 0 ?_ stFreeTok_wf (by norm_num)
  intro p hp
  rw [List.mem_singleton] at hp
  subst hp
  norm_num [cfgFreeTok]


/-- C7: with prefix awareness enabled and all other score inputs equal and
evaluated at the same instant, the scheduler score with prefix_hit_prob
above 0.5 is exactly 0.7 times the score with prefix_hit_prob at most
0.5 (the 0.7 factor is applied before the remaining multiplicative
factors, which coincide). -/
theorem c7_prefix_discount (pol : SchedPolicies) (w : ℚ) (ctx : RequestCtx)
    (kind : ItemKind) (nm nw : ℚ) (p1 p2 : ℚ)
    (hpa : pol.prefix_awareness = true) (h1 : 1/2 < p1) (h2 : p2 ≤ 1/2) :
    score pol w { ctx with prefix_hit_prob := p1 } kind nm nw =
      (7/10) * score pol w { ctx with prefix_hit_prob := p2 } kind nm nw := by
  obtain ⟨t, e, pr, cr, pm, pe⟩ := ctx
  simp only [score, hpa, true_and]
  rw [if_pos h1, if_neg (not_lt.mpr h2)]
  split_ifs <;> ring

/-- Witness for c7_prefix_discount at concrete inputs. -/
theorem c7_prefix_discount_witness :
    score SchedPolicies.dflt 1 ⟨"a", 10, 3/5, 0, 1, 0⟩ .prefill 0 0 =
      (7/10) * score SchedPolicies.dflt 1 ⟨"a", 10, 1/2, 0, 1, 0⟩ .prefill 0 0 :=
  c7_prefix_discount SchedPolicies.dflt 1 ⟨"a", 10, 0, 0, 1, 0⟩ .prefill 0 0
    (3/5) (1/2) rfl (by norm_num) (by norm_num)

end LLMServe
